import Mathlib

/-!
Shallow embedding of `src/background/Timer.js` (the Marinara pomodoro timer
core).  The source has three layers:

* `Timer` — a single-interval countdown timer with start/stop/pause/resume
  operations, a periodic tick callback and a one-shot expiry callback,
  emitting `start`/`stop`/`pause`/`resume`/`tick`/`expire`/`change` events;
* `PomodoroTimer` — a phase sequencer driven by the `createTimers` generator,
  which lazily produces (phase, nextPhase, duration) triples and rebinds a
  fresh `Timer` for each phase;
* `PersistentPomodoroTimer` — a wrapper that rebuilds the sequencer on every
  settings change and forwards all of its events unchanged.

Modelling conventions:

* Timestamps (`Date.now()`) are rationals measured in seconds; the source's
  millisecond timestamps and the `/ 1000` unit conversions in `pause` and the
  tick callback are absorbed into this choice of unit.  Durations and
  `remaining` are rationals in seconds, exactly as in the source.
* JavaScript `null`/`undefined` fields become `Option`; where the source
  would coerce `null` to `0` in arithmetic (`Date.now() - null`,
  `null - x`), the model uses `Option.getD _ 0`.
* The scheduled callbacks (`tickInterval`, `expireTimeout` handles) are
  modelled as booleans recording whether the callback is scheduled.
* Each operation is a pure function returning the updated state together
  with the list of events it emitted, in emission order.
* The `createTimers` generator is modelled as an explicit cursor (`GenPos`)
  together with a pure step function `genNext`, with one cursor position per
  `yield` site of the generator.
* The settings object always contains a `longBreak` record (as supplied by
  the settings provider); its `interval` field may be absent (`none`),
  mirroring a missing/undefined interval count.
-/

/-- The `TimerState` enum of the source. -/
inductive TimerState
  | Stopped
  | Running
  | Paused
deriving DecidableEq

/-- The `Phase` enum of the source. -/
inductive Phase
  | Focus
  | ShortBreak
  | LongBreak
deriving DecidableEq

/-- Events emitted by the single-interval `Timer`.  Payloads are the
`(elapsed, remaining)` arguments of the source's `emit` calls; `stop` and
`change` carry no arguments in the source. -/
inductive TEvent
  | start (elapsed remaining : ℚ)
  | stop
  | pause (elapsed remaining : ℚ)
  | resume (elapsed remaining : ℚ)
  | tick (elapsed remaining : ℚ)
  | expire (elapsed remaining : ℚ)
  | change
deriving DecidableEq

/-- State of the single-interval `Timer` class.  `tickInterval` and
`expireTimeout` record whether the corresponding callback is scheduled. -/
structure Timer where
  state : TimerState
  duration : ℚ
  tick : ℚ
  tickInterval : Bool
  expireTimeout : Bool
  periodStartTime : Option ℚ
  remaining : Option ℚ
deriving DecidableEq

/-- The `Timer` constructor: `new Timer(duration, tick)`. -/
def Timer.new (duration tick : ℚ) : Timer :=
  { state := .Stopped
    duration := duration
    tick := tick
    tickInterval := false
    expireTimeout := false
    periodStartTime := none
    remaining := none }

/-- `Timer.prototype.start`.  No-op unless Stopped; otherwise schedules both
callbacks, sets `remaining = duration`, `state = Running`,
`periodStartTime = now`, and emits `start(0, remaining)` then `change`. -/
def Timer.start (now : ℚ) (t : Timer) : Timer × List TEvent :=
  if t.state ≠ .Stopped then (t, [])
  else
    ({ t with
        expireTimeout := true
        tickInterval := true
        remaining := some t.duration
        state := .Running
        periodStartTime := some now },
     [.start 0 t.duration, .change])

/-- `Timer.prototype.stop`.  No-op when Stopped; otherwise cancels both
callbacks, clears `periodStartTime`/`remaining`, sets Stopped, and emits
`stop` then `change`. -/
def Timer.stop (t : Timer) : Timer × List TEvent :=
  if t.state = .Stopped then (t, [])
  else
    ({ t with
        tickInterval := false
        expireTimeout := false
        periodStartTime := none
        remaining := none
        state := .Stopped },
     [.stop, .change])

/-- `Timer.prototype.pause`.  No-op unless Running; otherwise cancels both
callbacks, commits `remaining -= now - periodStartTime`, sets Paused, clears
`periodStartTime`, and emits `pause(duration - remaining, remaining)` then
`change`. -/
def Timer.pause (now : ℚ) (t : Timer) : Timer × List TEvent :=
  if t.state ≠ .Running then (t, [])
  else
    let periodLength := now - t.periodStartTime.getD 0
    let rem := t.remaining.getD 0 - periodLength
    ({ t with
        tickInterval := false
        expireTimeout := false
        remaining := some rem
        state := .Paused
        periodStartTime := none },
     [.pause (t.duration - rem) rem, .change])

/-- `Timer.prototype.resume`.  No-op unless Paused; otherwise re-schedules
both callbacks, sets Running and `periodStartTime = now`, leaves `remaining`
untouched, and emits `resume(duration - remaining, remaining)` then
`change`. -/
def Timer.resume (now : ℚ) (t : Timer) : Timer × List TEvent :=
  if t.state ≠ .Paused then (t, [])
  else
    let rem := t.remaining.getD 0
    ({ t with
        expireTimeout := true
        tickInterval := true
        state := .Running
        periodStartTime := some now },
     [.resume (t.duration - rem) rem, .change])

/-- `Timer.prototype.reset`: `stop()` followed by `start()`. -/
def Timer.reset (now : ℚ) (t : Timer) : Timer × List TEvent :=
  let s := Timer.stop t
  let s2 := Timer.start now s.1
  (s2.1, s.2 ++ s2.2)

/-- Body of the expiry callback installed by `setExpireTimeout`: cancels both
callbacks, clears `periodStartTime`/`remaining`, sets Stopped, and emits
`expire(duration, 0)` then `change`. -/
def Timer.expireFire (t : Timer) : Timer × List TEvent :=
  ({ t with
      tickInterval := false
      expireTimeout := false
      periodStartTime := none
      remaining := none
      state := .Stopped },
   [.expire t.duration 0, .change])

/-- Body of the periodic callback installed by `setTickInterval`: computes
the projected remaining time `remaining - (now - periodStartTime)` without
committing it to state, and emits a single `tick` event. -/
def Timer.tickFire (now : ℚ) (t : Timer) : Timer × List TEvent :=
  let periodLength := now - t.periodStartTime.getD 0
  let rem := t.remaining.getD 0 - periodLength
  (t, [.tick (t.duration - rem) rem])

/-- One step of a client interaction with a `Timer`: a public operation or
one of the two private scheduled callbacks firing, each with the wall-clock
instant at which it runs where the source reads `Date.now()`. -/
inductive TimerOp
  | start (now : ℚ)
  | stop
  | pause (now : ℚ)
  | resume (now : ℚ)
  | reset (now : ℚ)
  | tickF (now : ℚ)
  | expireF
deriving DecidableEq

/-- Apply one `TimerOp`, returning the new state and the emitted events. -/
def applyTimerOpE (op : TimerOp) (t : Timer) : Timer × List TEvent :=
  match op with
  | .start now => Timer.start now t
  | .stop => Timer.stop t
  | .pause now => Timer.pause now t
  | .resume now => Timer.resume now t
  | .reset now => Timer.reset now t
  | .tickF now => Timer.tickFire now t
  | .expireF => Timer.expireFire t

/-- Apply one `TimerOp`, keeping only the state. -/
def applyTimerOp (op : TimerOp) (t : Timer) : Timer :=
  (applyTimerOpE op t).1

/-- Run a sequence of timer operations from a given state. -/
def runTimerOps (t : Timer) (ops : List TimerOp) : Timer :=
  ops.foldl (fun s op => applyTimerOp op s) t

/-- The spec's `Timer` state invariant: `remaining` is null iff Stopped, and
`periodStartTime` is non-null iff Running. -/
def TimerInv (t : Timer) : Prop :=
  (t.remaining = none ↔ t.state = .Stopped) ∧
  (t.periodStartTime ≠ none ↔ t.state = .Running)

/-- The spec's out-of-precondition cases for the four public operations:
`start` while not Stopped, `stop` while Stopped, `pause` while not Running,
`resume` while not Paused.  The remaining operations are not constrained by
the claim. -/
def outOfPre (op : TimerOp) (t : Timer) : Prop :=
  match op with
  | .start _ => t.state ≠ .Stopped
  | .stop => t.state = .Stopped
  | .pause _ => t.state ≠ .Running
  | .resume _ => t.state ≠ .Paused
  | _ => False

/-- `chgAfter evs` holds when every non-`change` event in `evs` is
immediately followed by a `change` event. -/
def chgAfter : List TEvent → Bool
  | [] => true
  | .change :: rest => chgAfter rest
  | _ :: .change :: rest => chgAfter (TEvent.change :: rest)
  | _ => false

/-- Floor of a rational, as a rational: models JavaScript `Math.floor`. -/
def floorQ (q : ℚ) : ℚ := (q.floor : ℚ)

/-- A duration entry of the settings object: `{duration: minutes}`. -/
structure DurationSetting where
  duration : ℚ
deriving DecidableEq

/-- The `longBreak` entry of the settings object:
`{duration: minutes, interval: count}`.  A `none` interval models an
absent/undefined interval count. -/
structure LongBreakSetting where
  duration : ℚ
  interval : Option ℤ
deriving DecidableEq

/-- The settings object supplied by the external settings provider. -/
structure Settings where
  focus : DurationSetting
  shortBreak : DurationSetting
  longBreak : LongBreakSetting
deriving DecidableEq

/-- JavaScript truthiness of the interval count: `undefined` and `0` are
falsy, every other integer is truthy. -/
def truthy : Option ℤ → Bool
  | none => false
  | some n => n != 0

/-- The `for` loop guard of `createTimers`: `!interval || (i < interval)`.
For an absent interval the comparison `i < undefined` is false, but the
first disjunct already holds. -/
def condTest (o : Option ℤ) (i : ℕ) : Bool :=
  !truthy o ||
    (match o with
     | none => false
     | some n => decide ((i : ℤ) < n))

/-- The guard `interval && (i == interval - 1)` selecting LongBreak as the
`nextPhase` of the ShortBreak generated on the last iteration before the
long break. -/
def isLastBeforeLong (o : Option ℤ) (i : ℕ) : Bool :=
  truthy o &&
    (match o with
     | none => false
     | some n => decide ((i : ℤ) = n - 1))

/-- Cursor of the `createTimers` generator: `start` is the initial suspended
state (before the first `next()`), and the other positions are the three
`yield` sites, carrying the `for` loop counter `i` where it is in scope. -/
inductive GenPos
  | start
  | atFocus (i : ℕ)
  | atShort (i : ℕ)
  | atLong
deriving DecidableEq

/-- One `next()` call of the `createTimers` generator: run from the current
suspension point to the next `yield`.  After the ShortBreak yield the loop
update `interval && ++i` runs, then the loop guard; when the guard fails,
the (always present) `longBreak` settings entry makes the generator yield a
LongBreak before restarting the outer `while` loop with `i = 0`. -/
def genNext (s : Settings) : GenPos → GenPos
  | .start => if condTest s.longBreak.interval 0 then .atFocus 0 else .atLong
  | .atFocus i => .atShort i
  | .atShort i =>
      let i2 := if truthy s.longBreak.interval then i + 1 else i
      if condTest s.longBreak.interval i2 then .atFocus i2 else .atLong
  | .atLong => if condTest s.longBreak.interval 0 then .atFocus 0 else .atLong

/-- The `_phase` value written at each yield site (`none` before the first
`next()`). -/
def genPhase : GenPos → Option Phase
  | .start => none
  | .atFocus _ => some .Focus
  | .atShort _ => some .ShortBreak
  | .atLong => some .LongBreak

/-- The `nextPhase` value written at each yield site. -/
def genNextPhase (s : Settings) : GenPos → Option Phase
  | .start => none
  | .atFocus _ => some .ShortBreak
  | .atShort i =>
      some (if isLastBeforeLong s.longBreak.interval i then .LongBreak else .Focus)
  | .atLong => some .Focus

/-- The configured minutes for the phase generated at a cursor position. -/
def phaseMinutes (s : Settings) : GenPos → ℚ
  | .start => 0
  | .atFocus _ => s.focus.duration
  | .atShort _ => s.shortBreak.duration
  | .atLong => s.longBreak.duration

/-- The duration, in whole seconds, of the `Timer` installed at a cursor
position: `Math.floor(minutes * 60)`. -/
def genDurQ (s : Settings) (p : GenPos) : ℚ := floorQ (phaseMinutes s p * 60)

/-- The fresh `Timer` installed at a cursor position:
`new Timer(Math.floor(duration * 60), 60)`. -/
def posTimer (s : Settings) (p : GenPos) : Timer := Timer.new (genDurQ s p) 60

/-- The cursor position after `k` calls to `next()` on a fresh generator. -/
def genIter (s : Settings) : ℕ → GenPos
  | 0 => .start
  | k + 1 => genNext s (genIter s k)

/-- Events emitted by the `PomodoroTimer` sequencer: each inner timer event
re-emitted under a `timer:`-prefixed name with `(phase, nextPhase)`
prepended, plus the `cycle:reset` event of the phase setter. -/
inductive PomEvent
  | timerStart (p n : Option Phase) (elapsed remaining : ℚ)
  | timerStop (p n : Option Phase)
  | timerPause (p n : Option Phase) (elapsed remaining : ℚ)
  | timerResume (p n : Option Phase) (elapsed remaining : ℚ)
  | timerTick (p n : Option Phase) (elapsed remaining : ℚ)
  | timerExpire (p n : Option Phase) (elapsed remaining : ℚ)
  | timerChange (p n : Option Phase)
  | cycleReset (p : Phase)
deriving DecidableEq

/-- The `onStart` … `onChange` handlers of `PomodoroTimer`: re-emit an inner
timer event with the current `(phase, nextPhase)` pair prepended. -/
def tagEvent (p n : Option Phase) : TEvent → PomEvent
  | .start e r => .timerStart p n e r
  | .stop => .timerStop p n
  | .pause e r => .timerPause p n e r
  | .resume e r => .timerResume p n e r
  | .tick e r => .timerTick p n e r
  | .expire e r => .timerExpire p n e r
  | .change => .timerChange p n

/-- State of the `PomodoroTimer` sequencer.  `log` records every event the
sequencer has emitted, in order; `observed` records whether an external
observer is subscribed, and `delivered` the events delivered to it (an
event reaches a subscriber only if the subscription exists when the event
is emitted). -/
structure PomodoroTimer where
  settings : Settings
  phase : Option Phase
  nextPhase : Option Phase
  pos : GenPos
  startOfCycle : Bool
  timer : Option Timer
  observed : Bool
  log : List PomEvent
  delivered : List PomEvent
deriving DecidableEq

/-- Emit a batch of sequencer events: always appended to the log, and
delivered to the external observer only while one is subscribed. -/
def PomodoroTimer.emitAll (st : PomodoroTimer) (evs : List PomEvent) : PomodoroTimer :=
  { st with
      log := st.log ++ evs
      delivered := st.delivered ++ if st.observed then evs else [] }

/-- Forward a batch of inner-timer events through the `on*` handlers. -/
def PomodoroTimer.forwardT (st : PomodoroTimer) (evs : List TEvent) : PomodoroTimer :=
  st.emitAll (evs.map (tagEvent st.phase st.nextPhase))

/-- The `setTimer` closure of `createTimers`: stop and detach the previous
timer (its `stop`/`change` events, if any, are still forwarded because the
listeners are removed only after `stop()` returns), then install the new
one. -/
def PomodoroTimer.setTimer (st : PomodoroTimer) (t : Timer) : PomodoroTimer :=
  match st.timer with
  | none => { st with timer := some t }
  | some old => { st.forwardT (Timer.stop old).2 with timer := some t }

/-- One `timerGenerator.next()` call: move the cursor, write `_phase` and
`nextPhase`, and install the fresh timer for the new position. -/
def genAdvance (st : PomodoroTimer) : PomodoroTimer :=
  let p := genNext st.settings st.pos
  PomodoroTimer.setTimer
    { st with pos := p, phase := genPhase p, nextPhase := genNextPhase st.settings p }
    (posTimer st.settings p)

/-- The `hasLongBreak` getter: `settings.longBreak.interval > 0` (false for
an absent interval). -/
def hasLongBreak (s : Settings) : Bool :=
  match s.longBreak.interval with
  | none => false
  | some n => decide (0 < n)

/-- The fast-forward loop of the phase setter
(`while (this.phase != newPhase) this.timerGenerator.next()`), with explicit
fuel; `none` models non-termination of the source loop. -/
def ffLoop (target : Phase) : ℕ → PomodoroTimer → Option PomodoroTimer
  | 0, _ => none
  | fuel + 1, st =>
      if st.phase = some target then some st
      else ffLoop target fuel (genAdvance st)

/-- Fuel bound for the fast-forward loop.  Any phase the loop can reach at
all is reached within `2 * interval + 1` steps, so this bound is reached
only when the source loop genuinely never terminates. -/
def seqFuel (s : Settings) : ℕ :=
  2 * (match s.longBreak.interval with
       | none => 0
       | some n => n.toNat) + 3

/-- The `phase` setter.  Throws (`Except.error`, leaving the state of the
receiver untouched — in the source the throw precedes every assignment)
when the target is LongBreak but no positive long-break interval is
configured; otherwise restarts the generator, fast-forwards it to the
target phase, marks the start of a freshly selected cycle and emits
`cycle:reset`.  An `Except.ok none` result models a fast-forward loop that
never terminates. -/
def PomodoroTimer.setPhase (st : PomodoroTimer) (target : Phase) :
    Except String (Option PomodoroTimer) :=
  if hasLongBreak st.settings = false ∧ target = Phase.LongBreak then
    .error "No long break interval defined."
  else
    match ffLoop target (seqFuel st.settings) { st with pos := .start, phase := none } with
    | none => .ok none
    | some st1 =>
        .ok (some ((PomodoroTimer.emitAll { st1 with startOfCycle := true }
          [.cycleReset target])))

/-- The field values of a `PomodoroTimer` before its constructor body runs:
every mutable field undefined/empty. -/
def blankSeq (s : Settings) : PomodoroTimer :=
  { settings := s
    phase := none
    nextPhase := none
    pos := .start
    startOfCycle := false
    timer := none
    observed := false
    log := []
    delivered := [] }

/-- The `PomodoroTimer` constructor: store the settings and invoke the phase
setter with the initial phase. -/
def PomodoroTimer.new (s : Settings) (initialPhase : Phase) :
    Except String (Option PomodoroTimer) :=
  (blankSeq s).setPhase initialPhase

/-- `PomodoroTimer.prototype.observe`: subscribe the external observer. -/
def PomodoroTimer.observe (st : PomodoroTimer) : PomodoroTimer :=
  { st with observed := true }

/-- `PomodoroTimer.prototype.start`: consume the start-of-cycle flag if set
(the already generated phase and timer stand), otherwise advance the
generator; then start the owned timer.  (After construction the sequencer
always owns a timer; the `none` branch is vacuous.) -/
def PomodoroTimer.start (st : PomodoroTimer) (now : ℚ) : PomodoroTimer :=
  let st1 := if st.startOfCycle then { st with startOfCycle := false } else genAdvance st
  match st1.timer with
  | none => st1
  | some t =>
      let r := Timer.start now t
      PomodoroTimer.forwardT { st1 with timer := some r.1 } r.2

/-- `PomodoroTimer.prototype.dispose`: stop the owned timer and detach its
listeners.  Returns the new state together with the events delivered to the
external observer during disposal. -/
def PomodoroTimer.dispose (st : PomodoroTimer) : PomodoroTimer × List PomEvent :=
  match st.timer with
  | none => (st, [])
  | some t =>
      let r := Timer.stop t
      let pevs := r.2.map (tagEvent st.phase st.nextPhase)
      ({ st.emitAll pevs with timer := some r.1 },
       if st.observed then pevs else [])

/-- State of the `PersistentPomodoroTimer` wrapper: the currently held
sequencer and the events the wrapper has re-emitted to its own
subscribers. -/
structure PersistentPomodoroTimer where
  timer : Option PomodoroTimer
  wlog : List PomEvent
deriving DecidableEq

/-- The wrapper's `onTimerStart` … `onCycleReset` handlers: each re-emits
the received event under the same name with the same arguments. -/
def wrapperForward : PomEvent → PomEvent
  | .timerStart p n e r => .timerStart p n e r
  | .timerStop p n => .timerStop p n
  | .timerPause p n e r => .timerPause p n e r
  | .timerResume p n e r => .timerResume p n e r
  | .timerTick p n e r => .timerTick p n e r
  | .timerExpire p n e r => .timerExpire p n e r
  | .timerChange p n => .timerChange p n
  | .cycleReset p => .cycleReset p

/-- The events the old sequencer delivers to the wrapper while being
disposed during a settings change. -/
def disposeEvents (w : PersistentPomodoroTimer) : List PomEvent :=
  match w.timer with
  | none => []
  | some old => old.dispose.2

/-- `PersistentPomodoroTimer.prototype.onSettingsChange`: dispose the
current sequencer (if any), build a fresh `PomodoroTimer` at phase Focus
from the new settings, and subscribe to it.  The dispose events of the old
sequencer are re-emitted by the wrapper; the `cycle:reset` emitted during
construction is not, because the wrapper subscribes only after the
constructor returns. -/
def PersistentPomodoroTimer.onSettingsChange (s : Settings)
    (w : PersistentPomodoroTimer) : Except String (Option PersistentPomodoroTimer) :=
  let dev := disposeEvents w
  match PomodoroTimer.new s Phase.Focus with
  | .error e => .error e
  | .ok none => .ok none
  | .ok (some st0) =>
      .ok (some { timer := some st0.observe, wlog := w.wlog ++ dev.map wrapperForward })

/-- Witness settings: 25/5/15 minutes with a long-break interval of 2. -/
def sW : Settings := ⟨⟨25⟩, ⟨5⟩, ⟨15, some 2⟩⟩

/-- Witness settings with a zero long-break interval. -/
def s0W : Settings := ⟨⟨25⟩, ⟨5⟩, ⟨15, some 0⟩⟩

/-- Settings with a negative long-break interval count. -/
def sNeg : Settings := ⟨⟨25⟩, ⟨5⟩, ⟨15, some (-1)⟩⟩

/-- A freshly constructed (pre-`setPhase`) sequencer over `sW`. -/
def blankW : PomodoroTimer := blankSeq sW

/-- The sequencer produced by `new PomodoroTimer(sW, ShortBreak)`. -/
def stSBW : PomodoroTimer :=
  { settings := sW
    phase := some .ShortBreak
    nextPhase := some .Focus
    pos := .atShort 0
    startOfCycle := true
    timer := some (Timer.new (floorQ (sW.shortBreak.duration * 60)) 60)
    observed := false
    log := [.cycleReset .ShortBreak]
    delivered := [] }

/-- The sequencer produced by `new PomodoroTimer(sW, Focus)`. -/
def stFW : PomodoroTimer :=
  { settings := sW
    phase := some .Focus
    nextPhase := some .ShortBreak
    pos := .atFocus 0
    startOfCycle := true
    timer := some (Timer.new (floorQ (sW.focus.duration * 60)) 60)
    observed := false
    log := [.cycleReset .Focus]
    delivered := [] }

/-- A `Timer` of duration 60 started at time 0: a concrete running state. -/
def runT : Timer := (Timer.start 0 (Timer.new 60 60)).1

/-- A sequencer's owned timer is absent or stopped (true of every timer the
generator installs before it is started). -/
def stoppedTimer : Option Timer → Prop
  | none => True
  | some t => t.state = TimerState.Stopped

/-- Nonnegative-or-absent long-break interval count: the configurations for
which the fast-forward loop of the phase setter always terminates. -/
def nonNegInterval (s : Settings) : Prop :=
  match s.longBreak.interval with
  | none => True
  | some n => 0 ≤ n

theorem emitAll_settings (st : PomodoroTimer) (evs : List PomEvent) :
    (st.emitAll evs).settings = st.settings := rfl

theorem emitAll_phase (st : PomodoroTimer) (evs : List PomEvent) :
    (st.emitAll evs).phase = st.phase := rfl

theorem emitAll_nextPhase (st : PomodoroTimer) (evs : List PomEvent) :
    (st.emitAll evs).nextPhase = st.nextPhase := rfl

theorem emitAll_pos (st : PomodoroTimer) (evs : List PomEvent) :
    (st.emitAll evs).pos = st.pos := rfl

theorem emitAll_startOfCycle (st : PomodoroTimer) (evs : List PomEvent) :
    (st.emitAll evs).startOfCycle = st.startOfCycle := rfl

theorem emitAll_timer (st : PomodoroTimer) (evs : List PomEvent) :
    (st.emitAll evs).timer = st.timer := rfl

theorem emitAll_observed (st : PomodoroTimer) (evs : List PomEvent) :
    (st.emitAll evs).observed = st.observed := rfl

theorem setTimer_settings (st : PomodoroTimer) (t : Timer) :
    (st.setTimer t).settings = st.settings := by
  cases h : st.timer <;> simp [PomodoroTimer.setTimer, PomodoroTimer.forwardT, h, emitAll_settings]

theorem setTimer_phase (st : PomodoroTimer) (t : Timer) :
    (st.setTimer t).phase = st.phase := by
  cases h : st.timer <;> simp [PomodoroTimer.setTimer, PomodoroTimer.forwardT, h, emitAll_phase]

theorem setTimer_nextPhase (st : PomodoroTimer) (t : Timer) :
    (st.setTimer t).nextPhase = st.nextPhase := by
  cases h : st.timer <;> simp [PomodoroTimer.setTimer, PomodoroTimer.forwardT, h, emitAll_nextPhase]

theorem setTimer_pos (st : PomodoroTimer) (t : Timer) :
    (st.setTimer t).pos = st.pos := by
  cases h : st.timer <;> simp [PomodoroTimer.setTimer, PomodoroTimer.forwardT, h, emitAll_pos]

theorem setTimer_startOfCycle (st : PomodoroTimer) (t : Timer) :
    (st.setTimer t).startOfCycle = st.startOfCycle := by
  cases h : st.timer <;>
    simp [PomodoroTimer.setTimer, PomodoroTimer.forwardT, h, emitAll_startOfCycle]

theorem setTimer_timer (st : PomodoroTimer) (t : Timer) :
    (st.setTimer t).timer = some t := by
  cases h : st.timer <;> simp [PomodoroTimer.setTimer, PomodoroTimer.forwardT, h]

theorem setTimer_observed (st : PomodoroTimer) (t : Timer) :
    (st.setTimer t).observed = st.observed := by
  cases h : st.timer <;> simp [PomodoroTimer.setTimer, PomodoroTimer.forwardT, h, emitAll_observed]

theorem genAdvance_settings (st : PomodoroTimer) :
    (genAdvance st).settings = st.settings := by
  simp [genAdvance, setTimer_settings]

theorem genAdvance_pos (st : PomodoroTimer) :
    (genAdvance st).pos = genNext st.settings st.pos := by
  simp [genAdvance, setTimer_pos]

theorem genAdvance_phase (st : PomodoroTimer) :
    (genAdvance st).phase = genPhase (genNext st.settings st.pos) := by
  simp [genAdvance, setTimer_phase]

theorem genAdvance_nextPhase (st : PomodoroTimer) :
    (genAdvance st).nextPhase = genNextPhase st.settings (genNext st.settings st.pos) := by
  simp [genAdvance, setTimer_nextPhase]

theorem genAdvance_timer (st : PomodoroTimer) :
    (genAdvance st).timer = some (posTimer st.settings (genNext st.settings st.pos)) := by
  simp [genAdvance, setTimer_timer]

theorem genAdvance_startOfCycle (st : PomodoroTimer) :
    (genAdvance st).startOfCycle = st.startOfCycle := by
  simp [genAdvance, setTimer_startOfCycle]

theorem genAdvance_observed (st : PomodoroTimer) :
    (genAdvance st).observed = st.observed := by
  simp [genAdvance, setTimer_observed]

theorem genAdvance_quiet (st : PomodoroTimer) (_hobs : st.observed = false)
    (htim : stoppedTimer st.timer) :
    (genAdvance st).log = st.log ∧ (genAdvance st).delivered = st.delivered ∧
      stoppedTimer (genAdvance st).timer := by
  refine ⟨?_, ?_, ?_⟩
  · cases h : st.timer with
    | none => simp [genAdvance, PomodoroTimer.setTimer, h]
    | some old =>
        rw [h] at htim
        simp [genAdvance, PomodoroTimer.setTimer, h, PomodoroTimer.forwardT,
          PomodoroTimer.emitAll, Timer.stop, stoppedTimer.eq_2] at htim ⊢
        simp [htim]
  · cases h : st.timer with
    | none => simp [genAdvance, PomodoroTimer.setTimer, h]
    | some old =>
        rw [h] at htim
        simp [genAdvance, PomodoroTimer.setTimer, h, PomodoroTimer.forwardT,
          PomodoroTimer.emitAll, Timer.stop, stoppedTimer.eq_2] at htim ⊢
        simp [htim]
  · rw [genAdvance_timer]
    simp [stoppedTimer, posTimer, Timer.new]

theorem ffLoop_phase (target : Phase) :
    ∀ (fuel : ℕ) (st st2 : PomodoroTimer), ffLoop target fuel st = some st2 →
      st2.phase = some target := by
  intro fuel
  induction fuel with
  | zero => intro st st2 h; simp [ffLoop] at h
  | succ n ih =>
      intro st st2 h
      rw [ffLoop] at h
      by_cases hp : st.phase = some target
      · simp [hp] at h; rw [← h]; exact hp
      · simp [hp] at h; exact ih _ _ h

theorem ffLoop_inv (s : Settings) (target : Phase) :
    ∀ (fuel : ℕ) (st st2 : PomodoroTimer), st.settings = s →
      ffLoop target fuel st = some st2 →
      st2.settings = s ∧
        (st2 = st ∨
          (st2.phase = genPhase st2.pos ∧
           st2.nextPhase = genNextPhase s st2.pos ∧
           st2.timer = some (posTimer s st2.pos))) := by
  intro fuel
  induction fuel with
  | zero => intro st st2 _ h; simp [ffLoop] at h
  | succ n ih =>
      intro st st2 hset h
      rw [ffLoop] at h
      by_cases hp : st.phase = some target
      · simp [hp] at h
        exact ⟨h ▸ hset, Or.inl h.symm⟩
      · simp [hp] at h
        obtain ⟨h1, h2⟩ := ih (genAdvance st) st2 (by rw [genAdvance_settings, hset]) h
        refine ⟨h1, Or.inr ?_⟩
        rcases h2 with h2 | h2
        · subst h2
          simp [genAdvance_phase, genAdvance_pos, genAdvance_nextPhase,
            genAdvance_timer, hset]
        · exact h2

theorem ffLoop_quiet (target : Phase) :
    ∀ (fuel : ℕ) (st st2 : PomodoroTimer), st.observed = false →
      stoppedTimer st.timer → ffLoop target fuel st = some st2 →
      st2.log = st.log ∧ st2.delivered = st.delivered ∧ st2.observed = false := by
  intro fuel
  induction fuel with
  | zero => intro st st2 _ _ h; simp [ffLoop] at h
  | succ n ih =>
      intro st st2 hobs htim h
      rw [ffLoop] at h
      by_cases hp : st.phase = some target
      · simp [hp] at h; rw [← h]; exact ⟨rfl, rfl, hobs⟩
      · simp [hp] at h
        obtain ⟨q1, q2, q3⟩ := genAdvance_quiet st hobs htim
        obtain ⟨r1, r2, r3⟩ := ih (genAdvance st) st2 (by rw [genAdvance_observed]; exact hobs) q3 h
        exact ⟨r1.trans q1, r2.trans q2, r3⟩

theorem setPhase_error_iff (st : PomodoroTimer) (target : Phase) :
    (∃ msg, st.setPhase target = Except.error msg) ↔
      (target = Phase.LongBreak ∧ hasLongBreak st.settings = false) := by
  constructor
  · intro ⟨msg, h⟩
    rw [PomodoroTimer.setPhase] at h
    by_cases hc : hasLongBreak st.settings = false ∧ target = Phase.LongBreak
    · exact ⟨hc.2, hc.1⟩
    · simp only [if_neg hc] at h
      cases hff : ffLoop target (seqFuel st.settings) { st with pos := .start, phase := none } with
      | none => rw [hff] at h; exact absurd h (by simp)
      | some st1 => rw [hff] at h; exact absurd h (by simp)
  · intro ⟨h1, h2⟩
    exact ⟨"No long break interval defined.", by rw [PomodoroTimer.setPhase, if_pos ⟨h2, h1⟩]⟩

theorem setPhase_ok (st st2 : PomodoroTimer) (target : Phase)
    (h : st.setPhase target = Except.ok (some st2)) :
    st2.settings = st.settings ∧
    st2.startOfCycle = true ∧
    st2.phase = some target ∧
    genPhase st2.pos = some target ∧
    st2.nextPhase = genNextPhase st.settings st2.pos ∧
    st2.timer = some (posTimer st.settings st2.pos) := by
  rw [PomodoroTimer.setPhase] at h
  by_cases hc : hasLongBreak st.settings = false ∧ target = Phase.LongBreak
  · rw [if_pos hc] at h; exact absurd h (by simp)
  · rw [if_neg hc] at h
    cases hff : ffLoop target (seqFuel st.settings) { st with pos := .start, phase := none } with
    | none => rw [hff] at h; exact absurd h (by simp)
    | some st1 =>
        rw [hff] at h
        simp only [Except.ok.injEq, Option.some.injEq] at h
        have hphase := ffLoop_phase target _ _ _ hff
        have hinv := ffLoop_inv st.settings target _ _ _ (by simp) hff
        obtain ⟨hs, hrest⟩ := hinv
        have hnotid : st1 ≠ ({ st with pos := .start, phase := none } : PomodoroTimer) := by
          intro he
          rw [he] at hphase
          exact absurd hphase (by simp)
        rcases hrest with he | ⟨hp, hn, ht⟩
        · exact absurd he hnotid
        · subst h
          refine ⟨by simp [emitAll_settings, hs], by simp [emitAll_startOfCycle], ?_, ?_, ?_, ?_⟩
          · simp [emitAll_phase, hphase]
          · rw [emitAll_pos]; rw [hp] at hphase; exact hphase
          · simp [emitAll_nextPhase, emitAll_pos, hn]
          · simp [emitAll_timer, emitAll_pos, ht]

theorem setPhase_quiet (st st2 : PomodoroTimer) (target : Phase)
    (hobs : st.observed = false) (htim : stoppedTimer st.timer)
    (h : st.setPhase target = Except.ok (some st2)) :
    st2.log = st.log ++ [PomEvent.cycleReset target] ∧
    st2.delivered = st.delivered ∧ st2.observed = false := by
  rw [PomodoroTimer.setPhase] at h
  by_cases hc : hasLongBreak st.settings = false ∧ target = Phase.LongBreak
  · rw [if_pos hc] at h; exact absurd h (by simp)
  · rw [if_neg hc] at h
    cases hff : ffLoop target (seqFuel st.settings) { st with pos := .start, phase := none } with
    | none => rw [hff] at h; exact absurd h (by simp)
    | some st1 =>
        rw [hff] at h
        simp only [Except.ok.injEq, Option.some.injEq] at h
        have hq := ffLoop_quiet target _ _ _ (by simpa using hobs) (by simpa using htim) hff
        obtain ⟨q1, q2, q3⟩ := hq
        subst h
        refine ⟨?_, ?_, ?_⟩
        · simp [PomodoroTimer.emitAll]; exact q1
        · simp [PomodoroTimer.emitAll, q3]; exact q2
        · simp [emitAll_observed, q3]

theorem genIter_succ (s : Settings) (k : ℕ) :
    genIter s (k + 1) = genNext s (genIter s k) := rfl

theorem falsy_pair (s : Settings)
    (h : s.longBreak.interval = some 0 ∨ s.longBreak.interval = none) :
    ∀ k : ℕ, genIter s (2 * k + 1) = .atFocus 0 ∧ genIter s (2 * k + 2) = .atShort 0 := by
  have hcond : condTest s.longBreak.interval 0 = true := by
    rcases h with h | h <;> simp [condTest, truthy, h]
  have htr : truthy s.longBreak.interval = false := by
    rcases h with h | h <;> simp [truthy, h]
  intro k
  induction k with
  | zero =>
      constructor
      · show genNext s (genIter s 0) = _
        simp [genIter, genNext, hcond]
      · show genNext s (genIter s 1) = _
        have h1 : genIter s 1 = .atFocus 0 := by
          show genNext s (genIter s 0) = _
          simp [genIter, genNext, hcond]
        rw [h1]
        simp [genNext]
  | succ k ih =>
      obtain ⟨ih1, ih2⟩ := ih
      have e1 : 2 * (k + 1) + 1 = (2 * k + 2) + 1 := by ring
      have e2 : 2 * (k + 1) + 2 = (2 * k + 2) + 2 := by ring
      constructor
      · rw [e1, genIter_succ, ih2]
        simp [genNext, htr, hcond]
      · rw [e2]
        have : genIter s (2 * k + 2 + 1) = .atFocus 0 := by
          rw [genIter_succ, ih2]
          simp [genNext, htr, hcond]
        show genNext s (genIter s (2 * k + 2 + 1)) = _
        rw [this]
        simp [genNext]

theorem two_cycle (s : Settings) (h : s.longBreak.interval = some 2) :
    ∀ k : ℕ,
      genIter s (5 * k + 1) = .atFocus 0 ∧
      genIter s (5 * k + 2) = .atShort 0 ∧
      genIter s (5 * k + 3) = .atFocus 1 ∧
      genIter s (5 * k + 4) = .atShort 1 ∧
      genIter s (5 * k + 5) = .atLong := by
  have hc0 : condTest s.longBreak.interval 0 = true := by simp [condTest, truthy, h]
  have hc1 : condTest s.longBreak.interval 1 = true := by simp [condTest, truthy, h]
  have hc2 : condTest s.longBreak.interval 2 = false := by simp [condTest, truthy, h]
  have htr : truthy s.longBreak.interval = true := by simp [truthy, h]
  have step : ∀ n p, genIter s n = p →
      genIter s (n + 1) = genNext s p := by
    intro n p hp; rw [genIter_succ, hp]
  intro k
  induction k with
  | zero =>
      have g1 : genIter s 1 = .atFocus 0 := by
        show genNext s (genIter s 0) = _
        simp [genIter, genNext, hc0]
      have g2 : genIter s 2 = .atShort 0 := by
        show genNext s (genIter s 1) = _
        rw [g1]; simp [genNext]
      have g3 : genIter s 3 = .atFocus 1 := by
        show genNext s (genIter s 2) = _
        rw [g2]; simp [genNext, htr, hc1]
      have g4 : genIter s 4 = .atShort 1 := by
        show genNext s (genIter s 3) = _
        rw [g3]; simp [genNext]
      have g5 : genIter s 5 = .atLong := by
        show genNext s (genIter s 4) = _
        rw [g4]; simp [genNext, htr, hc2]
      exact ⟨g1, g2, g3, g4, g5⟩
  | succ k ih =>
      obtain ⟨_, _, _, _, ih5⟩ := ih
      have e1 : 5 * (k + 1) + 1 = (5 * k + 5) + 1 := by ring
      have e2 : 5 * (k + 1) + 2 = (5 * k + 5) + 2 := by ring
      have e3 : 5 * (k + 1) + 3 = (5 * k + 5) + 3 := by ring
      have e4 : 5 * (k + 1) + 4 = (5 * k + 5) + 4 := by ring
      have e5 : 5 * (k + 1) + 5 = (5 * k + 5) + 5 := by ring
      have g1 : genIter s (5 * k + 5 + 1) = .atFocus 0 := by
        rw [genIter_succ, ih5]; simp [genNext, hc0]
      have g2 : genIter s (5 * k + 5 + 2) = .atShort 0 := by
        show genNext s (genIter s (5 * k + 5 + 1)) = _
        rw [g1]; simp [genNext]
      have g3 : genIter s (5 * k + 5 + 3) = .atFocus 1 := by
        show genNext s (genIter s (5 * k + 5 + 2)) = _
        rw [g2]; simp [genNext, htr, hc1]
      have g4 : genIter s (5 * k + 5 + 4) = .atShort 1 := by
        show genNext s (genIter s (5 * k + 5 + 3)) = _
        rw [g3]; simp [genNext]
      have g5 : genIter s (5 * k + 5 + 5) = .atLong := by
        show genNext s (genIter s (5 * k + 5 + 4)) = _
        rw [g4]; simp [genNext, htr, hc2]
      rw [e1, e2, e3, e4, e5]
      exact ⟨g1, g2, g3, g4, g5⟩

theorem ffLoop_isSome (s : Settings) (target : Phase) :
    ∀ (fuel m : ℕ) (st : PomodoroTimer), st.settings = s →
      st.pos = genIter s m → st.phase = genPhase (genIter s m) →
      (∃ j, m ≤ j ∧ j + 1 ≤ m + fuel ∧ genPhase (genIter s j) = some target) →
      ∃ st2, ffLoop target fuel st = some st2 := by
  intro fuel
  induction fuel with
  | zero =>
      intro m st _ _ _ ⟨j, hj1, hj2, _⟩
      omega
  | succ n ih =>
      intro m st hset hpos hphase ⟨j, hj1, hj2, hj3⟩
      rw [ffLoop]
      by_cases hp : st.phase = some target
      · exact ⟨st, by rw [if_pos hp]⟩
      · rw [if_neg hp]
        have hjm : j ≠ m := by
          intro he
          rw [he] at hj3
          rw [hphase] at hp
          exact hp hj3
        refine ih (m + 1) (genAdvance st) (by rw [genAdvance_settings, hset]) ?_ ?_ ?_
        · rw [genAdvance_pos, hpos, hset, genIter_succ]
        · rw [genAdvance_phase, hpos, hset, genIter_succ]
        · exact ⟨j, by omega, by omega, hj3⟩

theorem pos_pair (s : Settings) (m : ℕ) (hm : 0 < m)
    (h : s.longBreak.interval = some (m : ℤ)) :
    ∀ i : ℕ, i < m → genIter s (2 * i + 1) = .atFocus i ∧ genIter s (2 * i + 2) = .atShort i := by
  have htr : truthy s.longBreak.interval = true := by
    simp [truthy, h]; omega
  have hcond : ∀ i : ℕ, i < m → condTest s.longBreak.interval i = true := by
    intro i hi; simp [condTest, truthy, h]; omega
  intro i
  induction i with
  | zero =>
      intro h0
      have g1 : genIter s 1 = .atFocus 0 := by
        show genNext s (genIter s 0) = _
        simp [genIter, genNext, hcond 0 h0]
      refine ⟨g1, ?_⟩
      show genNext s (genIter s 1) = _
      rw [g1]; simp [genNext]
  | succ i ih =>
      intro hi
      obtain ⟨_, ih2⟩ := ih (by omega)
      have g1 : genIter s (2 * (i + 1) + 1) = .atFocus (i + 1) := by
        have e : 2 * (i + 1) + 1 = (2 * i + 2) + 1 := by ring
        rw [e, genIter_succ, ih2]
        simp [genNext, htr, hcond (i + 1) hi]
      refine ⟨g1, ?_⟩
      have e : 2 * (i + 1) + 2 = (2 * (i + 1) + 1) + 1 := by ring
      rw [e, genIter_succ, g1]
      simp [genNext]

theorem pos_reach_long (s : Settings) (m : ℕ) (hm : 0 < m)
    (h : s.longBreak.interval = some (m : ℤ)) :
    genIter s (2 * m + 1) = .atLong := by
  have htr : truthy s.longBreak.interval = true := by
    simp [truthy, h]; omega
  obtain ⟨_, h2⟩ := pos_pair s m hm h (m - 1) (by omega)
  have e : 2 * m + 1 = (2 * (m - 1) + 2) + 1 := by omega
  rw [e, genIter_succ, h2]
  have hm1 : m - 1 + 1 = m := by omega
  have hcond : condTest s.longBreak.interval m = false := by
    simp [condTest, truthy, h]; omega
  simp [genNext, htr, hm1, hcond]

theorem setPhase_completes (st : PomodoroTimer) (target : Phase)
    (hcond : ¬(hasLongBreak st.settings = false ∧ target = Phase.LongBreak))
    (hff : ∃ st2, ffLoop target (seqFuel st.settings)
      { st with pos := .start, phase := none } = some st2) :
    ∃ st2, st.setPhase target = Except.ok (some st2) := by
  rw [PomodoroTimer.setPhase, if_neg hcond]
  obtain ⟨st2, h⟩ := hff
  rw [h]
  exact ⟨_, rfl⟩

theorem construct_completes (s : Settings) (p : Phase)
    (hn : nonNegInterval s) (hp : ¬(p = Phase.LongBreak ∧ hasLongBreak s = false)) :
    ∃ st, PomodoroTimer.new s p = Except.ok (some st) := by
  have hwitness : ∃ j, 0 ≤ j ∧ j + 1 ≤ 0 + seqFuel s ∧
      genPhase (genIter s j) = some p := by
    cases p with
    | Focus =>
        refine ⟨1, by omega, ?_, ?_⟩
        · show 1 + 1 ≤ 0 + seqFuel s
          rw [seqFuel]; omega
        · have hcond : condTest s.longBreak.interval 0 = true := by
            cases hi : s.longBreak.interval with
            | none => simp [condTest, truthy]
            | some n =>
                rw [nonNegInterval, hi] at hn
                by_cases hz : n = 0
                · simp [condTest, truthy, hi, hz]
                · simp [condTest, truthy, hi, hz]; omega
          have : genIter s 1 = .atFocus 0 := by
            show genNext s (genIter s 0) = _
            simp [genIter, genNext, hcond]
          rw [this]; rfl
    | ShortBreak =>
        refine ⟨2, by omega, ?_, ?_⟩
        · show 2 + 1 ≤ 0 + seqFuel s
          rw [seqFuel]; omega
        · have hcond : condTest s.longBreak.interval 0 = true := by
            cases hi : s.longBreak.interval with
            | none => simp [condTest, truthy]
            | some n =>
                rw [nonNegInterval, hi] at hn
                by_cases hz : n = 0
                · simp [condTest, truthy, hi, hz]
                · simp [condTest, truthy, hi, hz]; omega
          have h1 : genIter s 1 = .atFocus 0 := by
            show genNext s (genIter s 0) = _
            simp [genIter, genNext, hcond]
          have h2 : genIter s 2 = .atShort 0 := by
            show genNext s (genIter s 1) = _
            rw [h1]; simp [genNext]
          rw [h2]; rfl
    | LongBreak =>
        have hlb : hasLongBreak s = true := by
          by_cases hh : hasLongBreak s = true
          · exact hh
          · exact absurd ⟨rfl, by simpa using hh⟩ hp
        rw [hasLongBreak] at hlb
        cases hi : s.longBreak.interval with
        | none => rw [hi] at hlb; simp at hlb
        | some n =>
            rw [hi] at hlb
            simp at hlb
            have hn' : n = (n.toNat : ℤ) := by omega
            have hmpos : 0 < n.toNat := by omega
            refine ⟨2 * n.toNat + 1, by omega, ?_, ?_⟩
            · show 2 * n.toNat + 1 + 1 ≤ 0 + seqFuel s
              simp [seqFuel, hi]
            · rw [pos_reach_long s n.toNat hmpos (by rw [hi, ← hn'])]; rfl
  have hff : ∃ st2, ffLoop p (seqFuel (blankSeq s).settings)
      { blankSeq s with pos := .start, phase := none } = some st2 :=
    ffLoop_isSome s p (seqFuel s) 0
      { blankSeq s with pos := .start, phase := none } rfl rfl rfl hwitness
  exact setPhase_completes (blankSeq s) p (by intro ⟨a, b⟩; exact hp ⟨b, a⟩) hff

theorem timerInv_new (d tk : ℚ) : TimerInv (Timer.new d tk) := by
  simp [TimerInv, Timer.new]

theorem timerInv_stop (t : Timer) (h : TimerInv t) : TimerInv (Timer.stop t).1 := by
  obtain ⟨h1, h2⟩ := h
  by_cases hst : t.state = .Stopped
  · rw [Timer.stop, if_pos hst]; exact ⟨h1, h2⟩
  · rw [Timer.stop, if_neg hst]; simp [TimerInv]

theorem timerInv_start (now : ℚ) (t : Timer) (h : TimerInv t) :
    TimerInv (Timer.start now t).1 := by
  obtain ⟨h1, h2⟩ := h
  by_cases hst : t.state = .Stopped
  · rw [Timer.start, if_neg (by simpa using hst)]
    simp [TimerInv]
  · rw [Timer.start, if_pos (by simpa using hst)]; exact ⟨h1, h2⟩

theorem timerInv_preserve (op : TimerOp) (t : Timer) (h : TimerInv t) :
    TimerInv (applyTimerOp op t) := by
  obtain ⟨h1, h2⟩ := h
  cases op with
  | start now => exact timerInv_start now t ⟨h1, h2⟩
  | stop => exact timerInv_stop t ⟨h1, h2⟩
  | pause now =>
      by_cases hst : t.state = .Running
      · rw [applyTimerOp, applyTimerOpE, Timer.pause, if_neg (by simpa using hst)]
        simp [TimerInv]
      · rw [applyTimerOp, applyTimerOpE, Timer.pause, if_pos (by simpa using hst)]
        exact ⟨h1, h2⟩
  | resume now =>
      by_cases hst : t.state = .Paused
      · rw [applyTimerOp, applyTimerOpE, Timer.resume, if_neg (by simpa using hst)]
        have hrem : t.remaining ≠ none := by
          intro he
          have := h1.mp he
          rw [hst] at this
          exact absurd this (by simp)
        simp [TimerInv, hrem]
      · rw [applyTimerOp, applyTimerOpE, Timer.resume, if_pos (by simpa using hst)]
        exact ⟨h1, h2⟩
  | reset now =>
      rw [applyTimerOp, applyTimerOpE, Timer.reset]
      exact timerInv_start now _ (timerInv_stop t ⟨h1, h2⟩)
  | tickF now => exact ⟨h1, h2⟩
  | expireF =>
      rw [applyTimerOp, applyTimerOpE, Timer.expireFire]
      simp [TimerInv]

theorem timerInv_run (ops : List TimerOp) :
    ∀ t : Timer, TimerInv t → TimerInv (runTimerOps t ops) := by
  induction ops with
  | nil => intro t h; exact h
  | cons op rest ih =>
      intro t h
      exact ih (applyTimerOp op t) (timerInv_preserve op t h)

theorem pomStart_flag (st : PomodoroTimer) (now : ℚ) (h : st.startOfCycle = true) :
    (st.start now).pos = st.pos ∧
    (st.start now).phase = st.phase ∧
    (st.start now).nextPhase = st.nextPhase ∧
    (st.start now).startOfCycle = false ∧
    (∀ t, st.timer = some t → (st.start now).timer = some (Timer.start now t).1) := by
  rw [PomodoroTimer.start]
  simp only [h, if_true]
  cases ht : st.timer with
  | none => simp [ht]
  | some t =>
      simp only [ht]
      refine ⟨?_, ?_, ?_, ?_, ?_⟩
      · simp [PomodoroTimer.forwardT, emitAll_pos]
      · simp [PomodoroTimer.forwardT, emitAll_phase]
      · simp [PomodoroTimer.forwardT, emitAll_nextPhase]
      · simp [PomodoroTimer.forwardT, emitAll_startOfCycle]
      · intro t2 ht2
        cases ht2
        simp [PomodoroTimer.forwardT, emitAll_timer]

theorem pomStart_fresh (st : PomodoroTimer) (now : ℚ) (t : Timer)
    (h : st.startOfCycle = true) (ht : st.timer = some t) (hts : t.state = .Stopped) :
    (st.start now).timer = some (Timer.start now t).1 ∧
    (st.start now).log = st.log ++
      [PomEvent.timerStart st.phase st.nextPhase 0 t.duration,
       PomEvent.timerChange st.phase st.nextPhase] := by
  rw [PomodoroTimer.start]
  simp only [h, if_true]
  simp only [ht]
  constructor
  · simp [PomodoroTimer.forwardT, emitAll_timer]
  · rw [Timer.start, if_neg (by simpa using hts)]
    simp [PomodoroTimer.forwardT, PomodoroTimer.emitAll, tagEvent]

theorem pomStart_advance (st : PomodoroTimer) (now : ℚ) (h : st.startOfCycle = false) :
    (st.start now).pos = genNext st.settings st.pos ∧
    (st.start now).timer =
      some (Timer.start now (posTimer st.settings (genNext st.settings st.pos))).1 := by
  rw [PomodoroTimer.start]
  simp only [h, Bool.false_eq_true, if_false]
  have ht := genAdvance_timer st
  simp only [ht]
  constructor
  · simp [PomodoroTimer.forwardT, emitAll_pos, genAdvance_pos]
  · simp [PomodoroTimer.forwardT, emitAll_timer]

theorem chgAfter_start (now : ℚ) (t : Timer) : chgAfter (Timer.start now t).2 = true := by
  by_cases hst : t.state = .Stopped
  · rw [Timer.start, if_neg (by simpa using hst)]; rfl
  · rw [Timer.start, if_pos (by simpa using hst)]; rfl

theorem chgAfter_stop (t : Timer) : chgAfter (Timer.stop t).2 = true := by
  by_cases hst : t.state = .Stopped
  · rw [Timer.stop, if_pos hst]; rfl
  · rw [Timer.stop, if_neg hst]; rfl

theorem chgAfter_pause (now : ℚ) (t : Timer) : chgAfter (Timer.pause now t).2 = true := by
  by_cases hst : t.state = .Running
  · rw [Timer.pause, if_neg (by simpa using hst)]; rfl
  · rw [Timer.pause, if_pos (by simpa using hst)]; rfl

theorem chgAfter_resume (now : ℚ) (t : Timer) : chgAfter (Timer.resume now t).2 = true := by
  by_cases hst : t.state = .Paused
  · rw [Timer.resume, if_neg (by simpa using hst)]; rfl
  · rw [Timer.resume, if_pos (by simpa using hst)]; rfl

/-- C2 (counterexample): the claim includes `tick` among the notifications
followed by a `change`, but the tick callback emits only a single `tick`
event.  On a concrete running timer of duration 60 started at time 0, the
tick callback firing at time 1 emits exactly `[tick 1 59]`, which is not
followed by a `change`. -/
theorem c2_counterexample :
    (Timer.tickFire 1 runT).2 = [TEvent.tick 1 59] ∧
    chgAfter (Timer.tickFire 1 runT).2 = false := by
  constructor
  · norm_num [Timer.tickFire, runT, Timer.start, Timer.new]
  · rfl

/-- C2 (amended): for every Timer, every notification emitted by `start`,
`stop`, `pause`, `resume` and by the expiry callback is immediately followed
by a `change` notification; the tick callback's `tick` notification is not
followed by a `change`. -/
theorem c2_amended (t : Timer) (now : ℚ) :
    chgAfter (Timer.start now t).2 = true ∧
    chgAfter (Timer.stop t).2 = true ∧
    chgAfter (Timer.pause now t).2 = true ∧
    chgAfter (Timer.resume now t).2 = true ∧
    chgAfter (Timer.expireFire t).2 = true ∧
    chgAfter (Timer.tickFire now t).2 = false :=
  ⟨chgAfter_start now t, chgAfter_stop t, chgAfter_pause now t,
   chgAfter_resume now t, rfl, rfl⟩

/-- C4: starting from a freshly constructed Timer, after every sequence of
operations (start, stop, pause, resume, reset, and the tick and expiry
callbacks firing at arbitrary instants) the state invariant holds:
`remaining` is null iff the state is Stopped, and `periodStartTime` is
non-null iff the state is Running. -/
theorem c4_timer_invariant (d tk : ℚ) (ops : List TimerOp) :
    TimerInv (runTimerOps (Timer.new d tk) ops) :=
  timerInv_run ops (Timer.new d tk) (timerInv_new d tk)

/-- C8: every out-of-precondition public Timer operation — `start` while not
Stopped, `stop` while Stopped, `pause` while not Running, `resume` while not
Paused — returns the state entirely unchanged and emits no notification. -/
theorem c8_silent_noop (op : TimerOp) (t : Timer) (h : outOfPre op t) :
    applyTimerOpE op t = (t, []) := by
  cases op with
  | start now =>
      have h2 : t.state ≠ TimerState.Stopped := h
      rw [applyTimerOpE, Timer.start, if_pos h2]
  | stop =>
      have h2 : t.state = TimerState.Stopped := h
      rw [applyTimerOpE, Timer.stop, if_pos h2]
  | pause now =>
      have h2 : t.state ≠ TimerState.Running := h
      rw [applyTimerOpE, Timer.pause, if_pos h2]
  | resume now =>
      have h2 : t.state ≠ TimerState.Paused := h
      rw [applyTimerOpE, Timer.resume, if_pos h2]
  | reset now => exact h.elim
  | tickF now => exact h.elim
  | expireF => exact h.elim

theorem c8_witness :
    applyTimerOpE (TimerOp.pause 0) (Timer.new 25 60) = (Timer.new 25 60, []) :=
  c8_silent_noop (TimerOp.pause 0) (Timer.new 25 60) (by simp [outOfPre, Timer.new])

/-- C9: whenever the periodic progress callback fires, it leaves every Timer
field unchanged (in particular it does not cancel itself) and emits exactly
one `tick` event with `rem2 = remaining - (now - periodStartTime)` and
`elapsed = duration - rem2`. -/
theorem c9_tick_frame (now : ℚ) (t : Timer) :
    (Timer.tickFire now t).1 = t ∧
    (Timer.tickFire now t).2 =
      [TEvent.tick
        (t.duration - (t.remaining.getD 0 - (now - t.periodStartTime.getD 0)))
        (t.remaining.getD 0 - (now - t.periodStartTime.getD 0))] :=
  ⟨rfl, rfl⟩

/-- C1 (counterexample): the claim quantifies over every configuration with
interval count at most 0, but with the concrete interval count `-1` the
`for` loop guard of `createTimers` fails immediately and the very first
generated phase is LongBreak, not Focus. -/
theorem c1_counterexample :
    sNeg.longBreak.interval = some (-1) ∧ ((-1 : ℤ) ≤ 0) ∧
    genPhase (genIter sNeg 1) = some Phase.LongBreak :=
  ⟨rfl, by norm_num, rfl⟩

/-- C1 (amended): for every configuration whose long-break interval count is
0 or absent, the phase sequence produced by the generation cursor is the
infinite alternation Focus, ShortBreak, Focus, ShortBreak, … and never
contains LongBreak. -/
theorem c1_amended (s : Settings)
    (h : s.longBreak.interval = some 0 ∨ s.longBreak.interval = none) :
    (∀ k : ℕ, genPhase (genIter s (2 * k + 1)) = some Phase.Focus ∧
              genPhase (genIter s (2 * k + 2)) = some Phase.ShortBreak) ∧
    (∀ n : ℕ, genPhase (genIter s (n + 1)) ≠ some Phase.LongBreak) := by
  have hp := falsy_pair s h
  constructor
  · intro k
    obtain ⟨h1, h2⟩ := hp k
    rw [h1, h2]
    exact ⟨rfl, rfl⟩
  · intro n
    rcases Nat.even_or_odd n with ⟨k, hk⟩ | ⟨k, hk⟩
    · have he : n + 1 = 2 * k + 1 := by omega
      rw [he, (hp k).1]
      simp [genPhase]
    · have he : n + 1 = 2 * k + 2 := by omega
      rw [he, (hp k).2]
      simp [genPhase]

theorem c1_witness :
    (genPhase (genIter s0W (2 * 0 + 1)) = some Phase.Focus ∧
     genPhase (genIter s0W (2 * 0 + 2)) = some Phase.ShortBreak) ∧
    genPhase (genIter s0W (0 + 1)) ≠ some Phase.LongBreak :=
  ⟨(c1_amended s0W (Or.inl rfl)).1 0, (c1_amended s0W (Or.inl rfl)).2 0⟩

/-- C5: the phase setter raises the InvalidConfiguration error — returned
synchronously as an `Except.error`, with no state produced (in the source
the throw precedes every assignment) — exactly when the target is LongBreak
and the configured long-break interval count is not greater than 0; for
every other target, and for LongBreak with a positive interval, no error is
raised. -/
theorem c5_setphase_error (st : PomodoroTimer) (target : Phase) :
    (∃ msg, st.setPhase target = Except.error msg) ↔
      (target = Phase.LongBreak ∧ hasLongBreak st.settings = false) :=
  setPhase_error_iff st target

/-- C6: with a long-break interval count of 2, the generated sequence of
(phase, nextPhase) pairs repeats Focus, ShortBreak, Focus, ShortBreak,
LongBreak forever; each Focus carries nextPhase ShortBreak, each LongBreak
carries nextPhase Focus, the ShortBreak immediately preceding a LongBreak
carries nextPhase LongBreak, and every other ShortBreak carries nextPhase
Focus. -/
theorem c6_interval_two (s : Settings) (h : s.longBreak.interval = some 2) (k : ℕ) :
    (genPhase (genIter s (5 * k + 1)), genNextPhase s (genIter s (5 * k + 1))) =
      (some Phase.Focus, some Phase.ShortBreak) ∧
    (genPhase (genIter s (5 * k + 2)), genNextPhase s (genIter s (5 * k + 2))) =
      (some Phase.ShortBreak, some Phase.Focus) ∧
    (genPhase (genIter s (5 * k + 3)), genNextPhase s (genIter s (5 * k + 3))) =
      (some Phase.Focus, some Phase.ShortBreak) ∧
    (genPhase (genIter s (5 * k + 4)), genNextPhase s (genIter s (5 * k + 4))) =
      (some Phase.ShortBreak, some Phase.LongBreak) ∧
    (genPhase (genIter s (5 * k + 5)), genNextPhase s (genIter s (5 * k + 5))) =
      (some Phase.LongBreak, some Phase.Focus) := by
  obtain ⟨g1, g2, g3, g4, g5⟩ := two_cycle s h k
  rw [g1, g2, g3, g4, g5]
  refine ⟨rfl, ?_, rfl, ?_, rfl⟩
  · simp [genPhase, genNextPhase, isLastBeforeLong, truthy, h]
  · simp [genPhase, genNextPhase, isLastBeforeLong, truthy, h]

theorem c6_witness :
    (genPhase (genIter sW (5 * 0 + 1)), genNextPhase sW (genIter sW (5 * 0 + 1))) =
      (some Phase.Focus, some Phase.ShortBreak) ∧
    (genPhase (genIter sW (5 * 0 + 4)), genNextPhase sW (genIter sW (5 * 0 + 4))) =
      (some Phase.ShortBreak, some Phase.LongBreak) :=
  ⟨(c6_interval_two sW rfl 0).1, (c6_interval_two sW rfl 0).2.2.2.1⟩

/-- C7: `start()` on the sequencer: at the start of a freshly selected cycle
it consumes the flag, leaves the cursor (and phase/nextPhase) unchanged and
starts the already-installed timer; otherwise it advances the cursor one
step and starts the freshly installed timer, whose duration is
`floor(configured minutes * 60)` seconds with a 60-second tick period.  In
particular, after `setPhase(ShortBreak)` a `start()` starts a timer of the
short-break duration in seconds, and the emitted `timer:*` events carry
`currentPhase = ShortBreak`. -/
theorem c7_sequencer_start (now : ℚ) (st : PomodoroTimer) (s : Settings)
    (st0 : PomodoroTimer) :
    (st.startOfCycle = true →
      (st.start now).pos = st.pos ∧
      (st.start now).phase = st.phase ∧
      (st.start now).nextPhase = st.nextPhase ∧
      (st.start now).startOfCycle = false ∧
      (∀ t, st.timer = some t → (st.start now).timer = some (Timer.start now t).1)) ∧
    (st.startOfCycle = false →
      (st.start now).pos = genNext st.settings st.pos ∧
      (st.start now).timer =
        some (Timer.start now (posTimer st.settings (genNext st.settings st.pos))).1 ∧
      (posTimer st.settings (genNext st.settings st.pos)).duration =
        floorQ (phaseMinutes st.settings (genNext st.settings st.pos) * 60) ∧
      (posTimer st.settings (genNext st.settings st.pos)).tick = 60) ∧
    (PomodoroTimer.new s Phase.ShortBreak = Except.ok (some st0) →
      (st0.observe.start now).timer =
        some (Timer.start now (Timer.new (floorQ (s.shortBreak.duration * 60)) 60)).1 ∧
      (st0.observe.start now).log = st0.log ++
        [PomEvent.timerStart (some Phase.ShortBreak) st0.nextPhase 0
            (floorQ (s.shortBreak.duration * 60)),
         PomEvent.timerChange (some Phase.ShortBreak) st0.nextPhase]) := by
  refine ⟨pomStart_flag st now, ?_, ?_⟩
  · intro h
    obtain ⟨h1, h2⟩ := pomStart_advance st now h
    exact ⟨h1, h2, rfl, rfl⟩
  · intro h
    obtain ⟨hset, hsoc, hphase, hgen, hnext, htim⟩ := setPhase_ok (blankSeq s) st0 Phase.ShortBreak h
    cases hpos : st0.pos with
    | start => rw [hpos] at hgen; exact absurd hgen (by simp [genPhase])
    | atFocus i => rw [hpos] at hgen; exact absurd hgen (by simp [genPhase])
    | atLong => rw [hpos] at hgen; exact absurd hgen (by simp [genPhase])
    | atShort i =>
        rw [hpos] at htim
        have htim2 : st0.observe.timer =
            some (Timer.new (floorQ (s.shortBreak.duration * 60)) 60) := htim
        have hsoc2 : st0.observe.startOfCycle = true := hsoc
        obtain ⟨ht3, hl3⟩ := pomStart_fresh st0.observe now
          (Timer.new (floorQ (s.shortBreak.duration * 60)) 60) hsoc2 htim2 rfl
        refine ⟨ht3, ?_⟩
        rw [hl3]
        have hp2 : st0.observe.phase = some Phase.ShortBreak := hphase
        rw [hp2]
        rfl

theorem c7_witness :
    (stSBW.start 0).pos = stSBW.pos ∧
    (blankW.start 0).pos = genNext blankW.settings blankW.pos ∧
    (stSBW.observe.start 0).timer =
      some (Timer.start 0 (Timer.new (floorQ (sW.shortBreak.duration * 60)) 60)).1 :=
  ⟨((c7_sequencer_start 0 stSBW sW stSBW).1 rfl).1,
   ((c7_sequencer_start 0 blankW sW stSBW).2.1 rfl).1,
   ((c7_sequencer_start 0 blankW sW stSBW).2.2 rfl).1⟩

/-- C10 (counterexample): the claim's "otherwise construction fast-forwards
the generator to initialPhase, sets the start-of-cycle flag, and emits
cycle:reset" fails at the concrete interval count `-1` with initial phase
Focus: no error is thrown (the initial phase is not LongBreak), but the
setter's fast-forward loop never terminates — the generator yields only
LongBreak — so construction never completes, never sets the flag and never
emits `cycle:reset` (the model's `Except.ok none` result). -/
theorem c10_counterexample :
    sNeg.longBreak.interval = some (-1) ∧
    Phase.Focus ≠ Phase.LongBreak ∧
    PomodoroTimer.new sNeg Phase.Focus = Except.ok none :=
  ⟨rfl, by decide, rfl⟩

/-- C10 (amended): the `PomodoroTimer` constructor invokes the phase setter
with the initial phase: it throws exactly when the initial phase is
LongBreak and the long-break interval count is not positive; whenever
construction completes, the start-of-cycle flag is set, the phase equals the
initial phase, the only event emitted during construction is `cycle:reset` —
and it is delivered to no subscriber, because observers can subscribe only
after the constructor returns.  For a nonnegative-or-absent interval count,
construction always completes in the non-throwing cases (for a negative
count and a non-LongBreak initial phase it never terminates, see the
counterexample). -/
theorem c10_constructor (s : Settings) (p : Phase) :
    ((∃ msg, PomodoroTimer.new s p = Except.error msg) ↔
      (p = Phase.LongBreak ∧ hasLongBreak s = false)) ∧
    (∀ st, PomodoroTimer.new s p = Except.ok (some st) →
      st.startOfCycle = true ∧ st.phase = some p ∧
      st.log = [PomEvent.cycleReset p] ∧ st.delivered = []) ∧
    (nonNegInterval s → ¬(p = Phase.LongBreak ∧ hasLongBreak s = false) →
      ∃ st, PomodoroTimer.new s p = Except.ok (some st)) := by
  refine ⟨setPhase_error_iff (blankSeq s) p, ?_, construct_completes s p⟩
  intro st h
  obtain ⟨_, hsoc, hphase, _, _, _⟩ := setPhase_ok (blankSeq s) st p h
  obtain ⟨hlog, hdel, _⟩ := setPhase_quiet (blankSeq s) st p rfl trivial h
  refine ⟨hsoc, hphase, ?_, ?_⟩
  · simpa [blankSeq] using hlog
  · simpa [blankSeq] using hdel

theorem c10_witness :
    stSBW.startOfCycle = true ∧ stSBW.phase = some Phase.ShortBreak ∧
    stSBW.log = [PomEvent.cycleReset Phase.ShortBreak] ∧ stSBW.delivered = [] :=
  (c10_constructor sW Phase.ShortBreak).2.1 stSBW rfl

/-- C3 (counterexample): the claim quantifies over every configuration
change, but when the new configuration has the concrete interval count `-1`
the wrapper never finishes constructing the replacement sequencer at phase
Focus — the constructor's fast-forward loop never terminates (the generator
yields only LongBreak) — so no new sequencer is installed, subscribed, or
forwarded from (the model's `Except.ok none` result). -/
theorem c3_counterexample :
    sNeg.longBreak.interval = some (-1) ∧
    PersistentPomodoroTimer.onSettingsChange sNeg ⟨none, []⟩ = Except.ok none :=
  ⟨rfl, rfl⟩

/-- C3 (amended): on a configuration-change notification whose new
configuration has a nonnegative or absent long-break interval count, the
wrapper disposes the current sequencer, constructs a new one at phase Focus
from the new configuration and subscribes to it, and every event the new
sequencer emits is delivered to the wrapper and re-emitted by the wrapper's
handlers unchanged (for a negative interval count the construction of the
new sequencer never completes, see the counterexample). -/
theorem c3_settings_change (s : Settings) (w : PersistentPomodoroTimer)
    (st0 : PomodoroTimer) :
    (nonNegInterval s →
      ∃ st1, PomodoroTimer.new s Phase.Focus = Except.ok (some st1) ∧
        PersistentPomodoroTimer.onSettingsChange s w =
          Except.ok (some { timer := some st1.observe,
                            wlog := w.wlog ++ (disposeEvents w).map wrapperForward })) ∧
    (PomodoroTimer.new s Phase.Focus = Except.ok (some st0) →
      PersistentPomodoroTimer.onSettingsChange s w =
        Except.ok (some { timer := some st0.observe,
                          wlog := w.wlog ++ (disposeEvents w).map wrapperForward }) ∧
      st0.phase = some Phase.Focus ∧
      st0.settings = s ∧
      st0.startOfCycle = true ∧
      st0.observe.observed = true) ∧
    (∀ e, wrapperForward e = e) ∧
    (∀ (st1 : PomodoroTimer) (evs : List PomEvent), st1.observed = true →
      (st1.emitAll evs).delivered = st1.delivered ++ evs) := by
  refine ⟨?_, ?_, ?_, ?_⟩
  · intro hn
    obtain ⟨st1, h1⟩ := construct_completes s Phase.Focus hn (by simp)
    exact ⟨st1, h1, by simp [PersistentPomodoroTimer.onSettingsChange, h1]⟩
  · intro h
    obtain ⟨hset, hsoc, hphase, _, _, _⟩ := setPhase_ok (blankSeq s) st0 Phase.Focus h
    exact ⟨by simp [PersistentPomodoroTimer.onSettingsChange, h], hphase, hset, hsoc, rfl⟩
  · intro e; cases e <;> rfl
  · intro st1 evs hobs
    simp [PomodoroTimer.emitAll, hobs]

theorem c3_witness :
    PersistentPomodoroTimer.onSettingsChange sW ⟨none, []⟩ =
      Except.ok (some ⟨some stFW.observe, []⟩) ∧
    stFW.phase = some Phase.Focus :=
  ⟨((c3_settings_change sW ⟨none, []⟩ stFW).2.1 rfl).1,
   ((c3_settings_change sW ⟨none, []⟩ stFW).2.1 rfl).2.1⟩
